import Mathlib

/-!
Shallow embedding of the `reactmovie` application (two variants of `App.jsx`:
the axios-based one under `src/src/App.jsx` and the fetch-based one under
`src/unnamed/part_000`).  The embedded pieces are:

* the movie record shipped by the API and the fallback record hardcoded in
  the axios variant;
* the `fetchMovie` effect of both variants, modelled as a total function from
  the possible outcomes of the single HTTP request to the resulting
  `(loading, error, movie)` state triple;
* the yup validation schema for the comment form (`comment`, `note`,
  `acceptConditions`) and the `onSubmit` / `handleDelete` handlers;
* the rendering of a movie record (poster guard, `vote_count || 0` default,
  cast list truncation to five entries).

The Redux slice `commentSlice` is imported by both variants but its file is
not part of the sources; its two operations are modelled from the spec, as
flagged on their definitions.
-/

namespace ReactMovie

/-- A cast member as delivered by the API: `casts: [{id, name, character}]`.
`App.jsx` renders `cast.name` and `cast.character` and uses `cast.id` as key. -/
structure CastMember where
  id : String
  name : String
  character : String
deriving DecidableEq, Repr

/-- The movie record, with the optional fields (`vote_count`, `casts`,
`poster_path`) represented as `Option`: the response is untrusted and each of
these may be absent. `vote_average` is a numeric value that is only ever
displayed, never computed with; it is carried as an exact rational. -/
structure Movie where
  id : String
  original_title : String
  overview : String
  release_date : String
  vote_average : Rat
  vote_count : Option Nat
  poster_path : Option String
  casts : Option (List CastMember)
deriving DecidableEq, Repr

/-- The hardcoded fallback record from the `catch` branch of `fetchMovie` in
`src/src/App.jsx` (lines 47-55). The object literal has no `vote_count`
field, an empty `poster_path` and an empty `casts` array. -/
def fallbackMovie : Movie :=
  { id := "fallback-movie"
    original_title := "The Honey Games"
    overview := "When an overenthusiastic Maya accidentally embarrasses the Empress of Buzztropolis, she is forced to unite with a team of misfit bugs and compete in the Honey Games for a chance to save her hive."
    release_date := "03/02/2018"
    vote_average := 6.6
    vote_count := none
    poster_path := some ""
    casts := some [] }

/-- The `(loading, error, movie)` state triple held by `App` via `useState`.
Initially `loading = true`, `error = none`, `movie = none`. -/
structure AppState where
  loading : Bool
  error : Option String
  movie : Option Movie
deriving DecidableEq, Repr

/-- The possible outcomes of the single HTTP GET performed at mount time:
a parsed body (a list of movie objects), a network-level error, a response
with a non-success status, or a body that fails to parse. -/
inductive FetchOutcome where
  | success (movies : List Movie)
  | networkError
  | httpError (status : Nat)
  | malformedBody
deriving DecidableEq, Repr

/-- An outcome is a failure when it is anything but a parsed body. -/
def FetchOutcome.isFailure : FetchOutcome → Bool
  | .success _ => false
  | _ => true

/-- The error banner text set by both variants on fetch failure. -/
def fetchErrorMessage : String := "Erreur lors du chargement du film"

/-- `fetchMovie` of `src/src/App.jsx` (axios variant): on success it stores
`response.data[0]` and clears the error; any thrown error (network failure,
non-2xx status mapped to a rejection by axios, or a parse failure) lands in
the `catch` branch, which sets the error message and substitutes
`fallbackMovie`; `finally` clears `loading` in every case. -/
def fetchMovieAxios : FetchOutcome → AppState
  | .success movies => { loading := false, error := none, movie := movies[0]? }
  | _ => { loading := false, error := some fetchErrorMessage, movie := some fallbackMovie }

/-- `fetchMovie` of `src/unnamed/part_000` (fetch variant): on a success
response it stores `data[0]` and leaves the error at its initial `none`; a
network error, a `!response.ok` status (explicitly thrown) or a `json()`
failure lands in the `catch` branch, which sets the error message and leaves
the movie at its initial `none`; `finally` clears `loading`. -/
def fetchMovieFetch : FetchOutcome → AppState
  | .success movies => { loading := false, error := none, movie := movies[0]? }
  | _ => { loading := false, error := some fetchErrorMessage, movie := none }

/-- Terminal state "ready with error and no movie". -/
def isErrorOnly (s : AppState) : Prop :=
  s.loading = false ∧ s.error ≠ none ∧ s.movie = none

/-- Terminal state "ready with error and fallback movie". -/
def isErrorFallback (s : AppState) : Prop :=
  s.loading = false ∧ s.error ≠ none ∧ s.movie = some fallbackMovie

instance (s : AppState) : Decidable (isErrorOnly s) := by
  unfold isErrorOnly; infer_instance

instance (s : AppState) : Decidable (isErrorFallback s) := by
  unfold isErrorFallback; infer_instance

/-! ### Comment form, validator and store -/

/-- The raw values the form hands to the resolver: the textarea yields a
string, the `select` yields the string value of the chosen `option` (the
placeholder option has value `""`, the others `"1"` to `"5"`), and the
checkbox yields a boolean. -/
structure FormInput where
  comment : String
  note : String
  acceptConditions : Bool
deriving DecidableEq, Repr

/-- The numeric value of a decimal digit character, `none` otherwise. -/
def charDigit (c : Char) : Option Nat :=
  if 48 ≤ c.toNat ∧ c.toNat ≤ 57 then some (c.toNat - 48) else none

/-- The value of a run of decimal digit characters, `none` as soon as a
non-digit appears. -/
def digitsValue (cs : List Char) : Option Nat :=
  cs.foldl
    (fun acc c =>
      match acc, charDigit c with
      | some a, some d => some (a * 10 + d)
      | _, _ => none)
    (some 0)

/-- An optionally signed decimal integer; the empty character list (the
placeholder option) yields `none`, standing for NaN. -/
def parseIntChars : List Char → Option Int
  | [] => none
  | '-' :: rest =>
    if rest.isEmpty then none else (digitsValue rest).map (fun v => -(v : Int))
  | cs => (digitsValue cs).map (fun v => (v : Int))

/-- The string-to-number cast applied by `yup.number()` to the raw select
value: a string that is empty after discarding whitespace becomes NaN (here
`none`), otherwise the string is parsed as a number; the integer parse here
covers every value the form's select can produce. -/
def yupNumberCast (s : String) : Option Int :=
  parseIntChars (s.data.filter (fun c => !c.isWhitespace))

/-- The three field-scoped error messages of the schema, plus the type error
of the `note` chain in `src/unnamed/part_000`. -/
def msgCommentRequired : String := "Le commentaire est obligatoire"
def msgCommentTooLong : String := "Le commentaire ne doit pas dépasser 500 caractères"
def msgNoteType : String := "Veuillez sélectionner une note"
def msgNoteRange : String := "La note doit être entre 1 et 5"
def msgAccept : String := "Vous devez accepter les conditions générales"

/-- The `comment` chain of the schema:
`yup.string().required(...).max(500, ...)`. `required` on a string rejects
the empty string; `max(500)` rejects any string longer than 500 characters. -/
def commentError (s : String) : Option String :=
  if s = "" then some msgCommentRequired
  else if s.length > 500 then some msgCommentTooLong
  else none

/-- The `note` chain of the schema:
`yup.number().typeError(...).required(...).min(1, ...).max(5, ...)`.
A value that does not cast to a number (the placeholder `""`) fails the type
check; a cast value below 1 or above 5 fails `min`/`max`. The `App.jsx`
variant omits `.typeError` and reports the default yup type message instead
of `msgNoteType`; the accept/reject behaviour is identical. -/
def noteError (s : String) : Option String :=
  match yupNumberCast s with
  | none => some msgNoteType
  | some n =>
    if n < 1 then some msgNoteRange
    else if n > 5 then some msgNoteRange
    else none

/-- The `acceptConditions` chain of the schema:
`yup.boolean().oneOf([true], ...)`. The checkbox always yields a boolean, so
the chain rejects exactly the value `false`. -/
def acceptError (b : Bool) : Option String :=
  if b then none else some msgAccept

/-- The field-keyed error set the resolver produces: one optional
human-readable message per field, `none` meaning the field passed. -/
structure FieldErrors where
  comment : Option String
  note : Option String
  acceptConditions : Option String
deriving DecidableEq, Repr

/-- Running the whole schema on a raw input: each field is validated
independently (no cross-field constraint exists). -/
def validate (i : FormInput) : FieldErrors :=
  { comment := commentError i.comment
    note := noteError i.note
    acceptConditions := acceptError i.acceptConditions }

/-- The resolver lets submission proceed exactly when no field produced a
message. -/
def FieldErrors.isValid (e : FieldErrors) : Bool :=
  e.comment.isNone && e.note.isNone && e.acceptConditions.isNone

/-- A stored comment, as built by `onSubmit`:
`{ id: Date.now().toString(), comment: data.comment, note: Number(data.note),
createdAt: new Date().toLocaleDateString() }`. -/
structure Comment where
  id : String
  comment : String
  note : Int
  createdAt : String
deriving DecidableEq, Repr

/-- The comment record `onSubmit` builds from the validated data; the id and
the formatted creation date come from the clock and are parameters here.
`Number(data.note)` is the numeric cast of the raw select value. -/
def mkComment (i : FormInput) (idv date : String) : Comment :=
  { id := idv
    comment := i.comment
    note := (yupNumberCast i.note).getD 0
    createdAt := date }

/-- Modelled from the spec: the `addComment` action of the Redux
`commentSlice`, which is imported by both variants but whose file is not in
the sources. Per the spec, `append(comment)` inserts a fully-formed comment
at the end of the ordered list, with no deduplication and no cap. -/
def addComment (l : List Comment) (c : Comment) : List Comment :=
  l ++ [c]

/-- Modelled from the spec: the `deleteComment` action of the Redux
`commentSlice`, which is imported by both variants but whose file is not in
the sources. Per the spec, `removeById(id)` deletes the first entry whose
identifier matches and is a no-op if the id is absent. -/
def deleteComment (l : List Comment) (idv : String) : List Comment :=
  match l with
  | [] => []
  | c :: rest => if c.id = idv then rest else c :: deleteComment rest idv

/-- One form submission as wired by
`handleSubmit(onSubmit)` with `resolver: yupResolver(schema)`: the resolver
validates first; only if every field passed is `onSubmit` run, which
dispatches `addComment` with the new comment. On failure the store is
untouched and the field errors are surfaced. Returns the new store and the
error set. -/
def submit (i : FormInput) (idv date : String) (store : List Comment) :
    List Comment × FieldErrors :=
  let e := validate i
  if e.isValid then (addComment store (mkComment i idv date), e) else (store, e)

/-- `handleDelete` dispatches `deleteComment` with the id of the clicked
entry. -/
def handleDelete (idv : String) (store : List Comment) : List Comment :=
  deleteComment store idv

/-! ### Rendering of a movie record (from `src/src/App.jsx`) -/

/-- What the movie header renders, as data: the optional poster image source,
the four always-shown text fields, the displayed vote count and the cast
entries actually listed (empty when the section is omitted). -/
structure MovieView where
  poster : Option String
  title : String
  synopsis : String
  release : String
  rating : Rat
  voteCount : Nat
  castList : List CastMember
deriving DecidableEq, Repr

/-- `poster_path.replace(/\\/g, '')`: every backslash character removed. -/
def stripBackslashes (s : String) : String :=
  String.mk (s.data.filter (fun c => c ≠ '\\'))

/-- The movie header of `src/src/App.jsx` (lines 88-114): the poster image is
rendered only when `movie.poster_path` is truthy (present and non-empty),
with backslashes stripped from the source; the vote count is
`movie.vote_count || 0`; the cast section is rendered only when `movie.casts`
is present and non-empty, listing `movie.casts.slice(0, 5)`. -/
def renderMovie (m : Movie) : MovieView :=
  { poster :=
      match m.poster_path with
      | none => none
      | some p => if p = "" then none else some (stripBackslashes p)
    title := m.original_title
    synopsis := m.overview
    release := m.release_date
    rating := m.vote_average
    voteCount := m.vote_count.getD 0
    castList :=
      match m.casts with
      | none => []
      | some cs => if cs.length > 0 then cs.take 5 else [] }

/-! ### UI event traces (for the store invariant) -/

/-- The discrete user actions that mutate the comment store: a form
submission (with the raw input and the clock-derived id and date) and a
per-item delete. -/
inductive UiEvent where
  | submitEv (i : FormInput) (idv date : String)
  | deleteEv (idv : String)
deriving DecidableEq, Repr

/-- One event applied to the store. -/
def step (store : List Comment) : UiEvent → List Comment
  | .submitEv i idv date => (submit i idv date store).1
  | .deleteEv idv => handleDelete idv store

/-- The store after a trace of user actions, starting from the initial empty
list. -/
def run (events : List UiEvent) : List Comment :=
  events.foldl step []

/-! ### Helper lemmas -/

theorem submit_of_invalid (i : FormInput) (idv date : String) (store : List Comment)
    (h : (validate i).isValid = false) : (submit i idv date store).1 = store := by
  simp [submit, h]

theorem submit_of_valid (i : FormInput) (idv date : String) (store : List Comment)
    (h : (validate i).isValid = true) :
    (submit i idv date store).1 = addComment store (mkComment i idv date) := by
  simp [submit, h]

theorem deleteComment_of_not_mem (idv : String) (l : List Comment)
    (h : ∀ c ∈ l, c.id ≠ idv) : deleteComment l idv = l := by
  induction l with
  | nil => rfl
  | cons c rest ih =>
    rw [deleteComment, if_neg (h c (List.mem_cons_self c rest))]
    rw [ih fun x hx => h x (List.mem_cons_of_mem c hx)]

theorem deleteComment_append_first (idv : String) (l1 l2 : List Comment) (c : Comment)
    (h1 : ∀ x ∈ l1, x.id ≠ idv) (hc : c.id = idv) :
    deleteComment (l1 ++ c :: l2) idv = l1 ++ l2 := by
  induction l1 with
  | nil => simp [deleteComment, hc]
  | cons x rest ih =>
    rw [List.cons_append, deleteComment, if_neg (h1 x (List.mem_cons_self x rest))]
    rw [ih fun y hy => h1 y (List.mem_cons_of_mem x hy), List.cons_append]

theorem mem_of_mem_deleteComment (idv : String) (l : List Comment) (c : Comment)
    (h : c ∈ deleteComment l idv) : c ∈ l := by
  induction l with
  | nil => simp [deleteComment] at h
  | cons x rest ih =>
    rw [deleteComment] at h
    by_cases hx : x.id = idv
    · rw [if_pos hx] at h
      exact List.mem_cons_of_mem x h
    · rw [if_neg hx] at h
      rcases List.mem_cons.mp h with h | h
      · exact h ▸ List.mem_cons_self x rest
      · exact List.mem_cons_of_mem x (ih h)

theorem mem_submit (i : FormInput) (idv date : String) (store : List Comment) (c : Comment)
    (h : c ∈ (submit i idv date store).1) :
    c ∈ store ∨ ((validate i).isValid = true ∧ c = mkComment i idv date) := by
  by_cases hv : (validate i).isValid = true
  · rw [submit_of_valid i idv date store hv] at h
    rcases List.mem_append.mp h with h | h
    · exact Or.inl h
    · exact Or.inr ⟨hv, List.mem_singleton.mp h⟩
  · rw [submit_of_invalid i idv date store (Bool.not_eq_true _ ▸ hv)] at h
    exact Or.inl h

theorem noteError_none_range (s : String) (h : noteError s = none) :
    ∃ n : Int, yupNumberCast s = some n ∧ 1 ≤ n ∧ n ≤ 5 := by
  unfold noteError at h
  rcases hc : yupNumberCast s with _ | n <;> rw [hc] at h
  · simp at h
  · change (if n < 1 then some msgNoteRange else if n > 5 then some msgNoteRange else none)
        = none at h
    by_cases h1 : n < 1
    · rw [if_pos h1] at h
      exact absurd h (by simp)
    · rw [if_neg h1] at h
      by_cases h5 : n > 5
      · rw [if_pos h5] at h
        exact absurd h (by simp)
      · exact ⟨n, rfl, by omega, by omega⟩

theorem mkComment_note_range (i : FormInput) (idv date : String)
    (h : (validate i).isValid = true) :
    1 ≤ (mkComment i idv date).note ∧ (mkComment i idv date).note ≤ 5 := by
  have hn : noteError i.note = none := by
    unfold FieldErrors.isValid validate at h
    simp only [Bool.and_eq_true, Option.isNone_iff_eq_none] at h
    exact h.1.2
  obtain ⟨n, hc, h1, h5⟩ := noteError_none_range i.note hn
  unfold mkComment
  simp [hc, h1, h5]

/-! ### Claims -/

theorem fallbackState_classified :
    isErrorFallback ⟨false, some fetchErrorMessage, some fallbackMovie⟩ ∧
    ¬ isErrorOnly ⟨false, some fetchErrorMessage, some fallbackMovie⟩ := by
  constructor
  · exact ⟨rfl, by simp, rfl⟩
  · intro hcon
    exact Option.noConfusion hcon.2.2

theorem errorOnlyState_classified :
    isErrorOnly ⟨false, some fetchErrorMessage, none⟩ ∧
    ¬ isErrorFallback ⟨false, some fetchErrorMessage, none⟩ := by
  constructor
  · exact ⟨rfl, by simp, rfl⟩
  · intro hcon
    exact Option.noConfusion hcon.2.2

/-- C1: every failure outcome of the single fetch performed at initialization
is handled, never rethrown (both `fetchMovieAxios` and `fetchMovieFetch` are
total functions), and lands in exactly one of the two documented terminal
error states: the axios variant in "ready with error and fallback movie", the
fetch variant in "ready with error and no movie". -/
theorem fetch_failure_terminal (o : FetchOutcome) (h : o.isFailure = true) :
    (isErrorFallback (fetchMovieAxios o) ∧ ¬ isErrorOnly (fetchMovieAxios o)) ∧
    (isErrorOnly (fetchMovieFetch o) ∧ ¬ isErrorFallback (fetchMovieFetch o)) := by
  cases o with
  | success movies => exact absurd h (by simp [FetchOutcome.isFailure])
  | networkError => exact ⟨fallbackState_classified, errorOnlyState_classified⟩
  | httpError status => exact ⟨fallbackState_classified, errorOnlyState_classified⟩
  | malformedBody => exact ⟨fallbackState_classified, errorOnlyState_classified⟩

theorem fetch_failure_terminal_witness :
    FetchOutcome.isFailure .networkError = true ∧
    ((isErrorFallback (fetchMovieAxios .networkError) ∧
      ¬ isErrorOnly (fetchMovieAxios .networkError)) ∧
     (isErrorOnly (fetchMovieFetch .networkError) ∧
      ¬ isErrorFallback (fetchMovieFetch .networkError))) :=
  ⟨rfl, fetch_failure_terminal .networkError rfl⟩

/-- C2: a submission whose body has length 501 is rejected with the
length-validation message and leaves the store unchanged; a body of length
exactly 500 passes the body check, and when the other two fields are valid
the whole submission is accepted and appended. -/
theorem comment_length_bounds (i : FormInput) (idv date : String) (store : List Comment) :
    (i.comment.length = 501 →
       (validate i).comment = some msgCommentTooLong ∧
       (submit i idv date store).1 = store) ∧
    (i.comment.length = 500 →
       (validate i).comment = none ∧
       ((validate i).note = none → (validate i).acceptConditions = none →
         (validate i).isValid = true ∧
         (submit i idv date store).1 = addComment store (mkComment i idv date))) := by
  constructor
  · intro h
    have hne : i.comment ≠ "" := by
      intro he; rw [he] at h; simp at h
    have hc : commentError i.comment = some msgCommentTooLong := by
      unfold commentError
      rw [if_neg hne, if_pos (by omega)]
    refine ⟨hc, ?_⟩
    apply submit_of_invalid
    unfold FieldErrors.isValid validate
    simp [hc]
  · intro h
    have hne : i.comment ≠ "" := by
      intro he; rw [he] at h; simp at h
    have hc : commentError i.comment = none := by
      unfold commentError
      rw [if_neg hne, if_neg (by omega)]
    refine ⟨hc, fun hn ha => ?_⟩
    have hv : (validate i).isValid = true := by
      unfold FieldErrors.isValid
      unfold validate at hn ha ⊢
      simp only at hn ha
      simp [hc, hn, ha]
    exact ⟨hv, submit_of_valid i idv date store hv⟩

/-- A body of `n` repetitions of the letter a, used to exercise the length
bounds. -/
def repeatedBody (n : Nat) : String := String.mk (List.replicate n 'a')

theorem submit_of_note_error (i : FormInput) (idv date : String) (store : List Comment)
    (m : String) (hm : noteError i.note = some m) : (submit i idv date store).1 = store := by
  apply submit_of_invalid
  unfold FieldErrors.isValid validate
  simp [hm]

theorem commentError_cases (s : String) :
    commentError s = none ∨ commentError s = some msgCommentRequired ∨
    commentError s = some msgCommentTooLong := by
  unfold commentError
  by_cases h0 : s = ""
  · rw [if_pos h0]
    exact Or.inr (Or.inl rfl)
  · rw [if_neg h0]
    by_cases hl : s.length > 500
    · rw [if_pos hl]
      exact Or.inr (Or.inr rfl)
    · rw [if_neg hl]
      exact Or.inl rfl

theorem noteError_cases (s : String) :
    noteError s = none ∨ noteError s = some msgNoteType ∨
    noteError s = some msgNoteRange := by
  unfold noteError
  rcases yupNumberCast s with _ | n
  · exact Or.inr (Or.inl rfl)
  · by_cases h1 : n < 1
    · exact Or.inr (Or.inr (by simp [h1]))
    · by_cases h5 : n > 5
      · exact Or.inr (Or.inr (by simp [h1, h5]))
      · exact Or.inl (by simp [h1, h5])

theorem acceptError_cases (b : Bool) :
    acceptError b = none ∨ acceptError b = some msgAccept := by
  cases b
  · exact Or.inr rfl
  · exact Or.inl rfl

set_option maxRecDepth 8000 in
theorem comment_length_bounds_witness :
    ((validate { comment := repeatedBody 501, note := "3", acceptConditions := true }).comment
        = some msgCommentTooLong ∧
     (submit { comment := repeatedBody 501, note := "3", acceptConditions := true } "1" "d" []).1
        = []) ∧
    ((validate { comment := repeatedBody 500, note := "3", acceptConditions := true }).isValid
        = true) :=
  ⟨(comment_length_bounds _ "1" "d" []).1 (by decide),
   (((comment_length_bounds
        { comment := repeatedBody 500, note := "3", acceptConditions := true } "1" "d" []).2
      (by decide)).2 (by decide) (by decide)).1⟩

/-- C3: the rating must lie in the closed range 1 to 5: the unselected
placeholder (raw value `""`) fails the note check and blocks the submission,
raw values `"0"` and `"6"` fail it and block the submission, and each of
`"1"` to `"5"` passes it; with the other two fields also valid such a
submission is accepted and appended. -/
theorem note_validation (i : FormInput) (idv date : String) (store : List Comment) :
    (i.note = "" →
       (validate i).note = some msgNoteType ∧ (submit i idv date store).1 = store) ∧
    (i.note = "0" →
       (validate i).note = some msgNoteRange ∧ (submit i idv date store).1 = store) ∧
    (i.note = "6" →
       (validate i).note = some msgNoteRange ∧ (submit i idv date store).1 = store) ∧
    ((i.note = "1" ∨ i.note = "2" ∨ i.note = "3" ∨ i.note = "4" ∨ i.note = "5") →
       (validate i).note = none ∧
       ((validate i).comment = none → (validate i).acceptConditions = none →
          (validate i).isValid = true ∧
          (submit i idv date store).1 = addComment store (mkComment i idv date))) := by
  refine ⟨?_, ?_, ?_, ?_⟩
  · intro h
    have hn : noteError i.note = some msgNoteType := by rw [h]; decide
    exact ⟨hn, submit_of_note_error i idv date store _ hn⟩
  · intro h
    have hn : noteError i.note = some msgNoteRange := by rw [h]; decide
    exact ⟨hn, submit_of_note_error i idv date store _ hn⟩
  · intro h
    have hn : noteError i.note = some msgNoteRange := by rw [h]; decide
    exact ⟨hn, submit_of_note_error i idv date store _ hn⟩
  · intro h
    have hn : noteError i.note = none := by
      rcases h with h | h | h | h | h <;> rw [h] <;> decide
    refine ⟨hn, fun hc ha => ?_⟩
    have hv : (validate i).isValid = true := by
      unfold validate at hc ha
      unfold FieldErrors.isValid validate
      simp only at hc ha
      simp [hn, hc, ha]
    exact ⟨hv, submit_of_valid i idv date store hv⟩

theorem note_validation_witness :
    ((validate { comment := "Bon", note := "", acceptConditions := true }).note
        = some msgNoteType ∧
     (submit { comment := "Bon", note := "", acceptConditions := true } "1" "d" []).1 = []) ∧
    ((validate { comment := "Bon", note := "0", acceptConditions := true }).note
        = some msgNoteRange ∧
     (submit { comment := "Bon", note := "0", acceptConditions := true } "2" "d" []).1 = []) ∧
    ((validate { comment := "Bon", note := "6", acceptConditions := true }).note
        = some msgNoteRange ∧
     (submit { comment := "Bon", note := "6", acceptConditions := true } "3" "d" []).1 = []) ∧
    (validate { comment := "Bon", note := "2", acceptConditions := true }).isValid = true :=
  ⟨(note_validation _ "1" "d" []).1 rfl,
   (note_validation _ "2" "d" []).2.1 rfl,
   (note_validation _ "3" "d" []).2.2.1 rfl,
   (((note_validation { comment := "Bon", note := "2", acceptConditions := true }
        "4" "d" []).2.2.2 (Or.inr (Or.inl rfl))).2 (by decide) (by decide)).1⟩

/-- C4: whenever the acknowledgment checkbox is not exactly true, validation
attaches the acceptance message, the submission is rejected and the store is
untouched — for every combination of values of the other two fields. -/
theorem accept_required (i : FormInput) (idv date : String) (store : List Comment)
    (h : i.acceptConditions = false) :
    (validate i).acceptConditions = some msgAccept ∧
    (validate i).isValid = false ∧
    (submit i idv date store).1 = store := by
  have ha : acceptError i.acceptConditions = some msgAccept := by rw [h]; rfl
  have hv : (validate i).isValid = false := by
    unfold FieldErrors.isValid validate
    simp [ha]
  exact ⟨ha, hv, submit_of_invalid i idv date store hv⟩

theorem accept_required_witness :
    (validate { comment := "Tres bon film", note := "4", acceptConditions := false
      }).acceptConditions = some msgAccept ∧
    (validate { comment := "Tres bon film", note := "4", acceptConditions := false
      }).isValid = false ∧
    (submit { comment := "Tres bon film", note := "4", acceptConditions := false }
      "1" "d" []).1 = [] :=
  accept_required _ "1" "d" [] rfl

/-- C5: validation runs before any state mutation: on a failed validation the
store is completely unchanged and at least one field carries a message, each
attached message being one of the documented field-scoped human-readable
strings; the store append is invoked only when validation succeeds. -/
theorem validate_before_mutation (i : FormInput) (idv date : String) (store : List Comment) :
    ((validate i).isValid = false →
       (submit i idv date store).1 = store ∧
       ((validate i).comment ≠ none ∨ (validate i).note ≠ none ∨
        (validate i).acceptConditions ≠ none)) ∧
    ((validate i).isValid = true →
       (submit i idv date store).1 = addComment store (mkComment i idv date)) ∧
    ((validate i).comment = none ∨ (validate i).comment = some msgCommentRequired ∨
      (validate i).comment = some msgCommentTooLong) ∧
    ((validate i).note = none ∨ (validate i).note = some msgNoteType ∨
      (validate i).note = some msgNoteRange) ∧
    ((validate i).acceptConditions = none ∨
      (validate i).acceptConditions = some msgAccept) := by
  refine ⟨fun h => ⟨submit_of_invalid i idv date store h, ?_⟩,
    submit_of_valid i idv date store,
    commentError_cases i.comment, noteError_cases i.note,
    acceptError_cases i.acceptConditions⟩
  by_contra hcon
  push_neg at hcon
  obtain ⟨h1, h2, h3⟩ := hcon
  unfold FieldErrors.isValid at h
  rw [h1, h2, h3] at h
  simp at h

theorem validate_before_mutation_witness :
    (submit { comment := "", note := "", acceptConditions := false } "1" "d"
        [{ id := "9", comment := "ancien", note := 3, createdAt := "d" }]).1
      = [{ id := "9", comment := "ancien", note := 3, createdAt := "d" }] ∧
    ((validate { comment := "", note := "", acceptConditions := false }).comment ≠ none ∨
     (validate { comment := "", note := "", acceptConditions := false }).note ≠ none ∨
     (validate { comment := "", note := "", acceptConditions := false
       }).acceptConditions ≠ none) :=
  (validate_before_mutation { comment := "", note := "", acceptConditions := false }
    "1" "d" [{ id := "9", comment := "ancien", note := 3, createdAt := "d" }]).1
    (by decide)

/-- Two concrete comments with distinct ids, used by the store theorems. -/
def commentA : Comment :=
  { id := "1", comment := "premier", note := 4, createdAt := "01/01/2024" }

def commentB : Comment :=
  { id := "2", comment := "second", note := 5, createdAt := "01/01/2024" }

/-- C6 counterexample: from a prior list that already holds a comment with
the same id as A (here, A itself), appending A then B and removing A by its
id deletes the earlier entry, so A is still present among the remaining
entries — the result is not a list containing only B among A and B. -/
theorem append_append_remove_counterexample :
    deleteComment (addComment (addComment [commentA] commentA) commentB) commentA.id
      = [commentA, commentB] ∧
    commentA ∈ deleteComment (addComment (addComment [commentA] commentA) commentB)
      commentA.id := by
  decide

/-- C6 (amended): from a prior list in which no entry has A's id, appending
A, then B, then removing A by its id yields exactly the prior list with B
appended at the end — A is gone and every remaining entry keeps its original
relative position. -/
theorem append_append_remove (l : List Comment) (A B : Comment)
    (h : ∀ c ∈ l, c.id ≠ A.id) :
    deleteComment (addComment (addComment l A) B) A.id = addComment l B := by
  unfold addComment
  rw [List.append_assoc]
  exact deleteComment_append_first A.id l [B] A h rfl

theorem append_append_remove_witness :
    deleteComment (addComment (addComment [commentB] commentA) commentB) commentA.id
      = addComment [commentB] commentB :=
  append_append_remove [commentB] commentA commentB (by decide)

/-- C7: removing an id that occurs nowhere in the list leaves the list
unchanged (the operation is total, so no error is possible); when the id is
present, exactly the first entry bearing it is deleted. -/
theorem remove_absent_noop_present_first (idv : String) (l : List Comment) :
    ((∀ c ∈ l, c.id ≠ idv) → deleteComment l idv = l) ∧
    (∀ l1 c l2, l = l1 ++ c :: l2 → (∀ x ∈ l1, x.id ≠ idv) → c.id = idv →
       deleteComment l idv = l1 ++ l2) := by
  refine ⟨deleteComment_of_not_mem idv l, ?_⟩
  rintro l1 c l2 rfl h1 hc
  exact deleteComment_append_first idv l1 l2 c h1 hc

theorem remove_absent_noop_present_first_witness :
    deleteComment [commentA, commentB] "zz" = [commentA, commentB] ∧
    deleteComment [commentA, commentB] "2" = [commentA] :=
  ⟨(remove_absent_noop_present_first "zz" [commentA, commentB]).1 (by decide),
   (remove_absent_noop_present_first "2" [commentA, commentB]).2
     [commentA] commentB [] rfl (by decide) rfl⟩

/-- C8: the render is a total function of the movie record and tolerates
missing optional fields: an absent `vote_count` is displayed as 0, an absent
`casts` yields an empty displayed cast list (section omitted), and an absent
or empty `poster_path` yields no image. -/
theorem render_tolerates_missing (m : Movie) :
    (m.vote_count = none → (renderMovie m).voteCount = 0) ∧
    (m.casts = none → (renderMovie m).castList = []) ∧
    ((m.poster_path = none ∨ m.poster_path = some "") →
       (renderMovie m).poster = none) := by
  refine ⟨fun hv => ?_, fun hc => ?_, fun hp => ?_⟩
  · simp [renderMovie, hv]
  · simp [renderMovie, hc]
  · rcases hp with hp | hp <;> simp [renderMovie, hp]

/-- A movie record with every optional field absent. -/
def bareMovie : Movie :=
  { id := "m1", original_title := "T", overview := "O", release_date := "2020-01-01",
    vote_average := 7, vote_count := none, poster_path := none, casts := none }

theorem render_tolerates_missing_witness :
    (renderMovie bareMovie).voteCount = 0 ∧
    (renderMovie bareMovie).castList = [] ∧
    (renderMovie bareMovie).poster = none :=
  ⟨(render_tolerates_missing bareMovie).1 rfl,
   (render_tolerates_missing bareMovie).2.1 rfl,
   (render_tolerates_missing bareMovie).2.2 (Or.inl rfl)⟩

/-- C9: a successful fetch whose body holds exactly one movie object stores
that movie (in both variants), and the render shows its title, synopsis,
release date and average rating, with the displayed cast list never holding
more than 5 entries however long the movie's cast list is. -/
theorem success_fetch_render (m : Movie) :
    (fetchMovieAxios (.success [m])).movie = some m ∧
    (fetchMovieFetch (.success [m])).movie = some m ∧
    (renderMovie m).title = m.original_title ∧
    (renderMovie m).synopsis = m.overview ∧
    (renderMovie m).release = m.release_date ∧
    (renderMovie m).rating = m.vote_average ∧
    (renderMovie m).castList.length ≤ 5 := by
  refine ⟨by simp [fetchMovieAxios], by simp [fetchMovieFetch], rfl, rfl, rfl, rfl, ?_⟩
  rcases hc : m.casts with _ | cs
  · simp [renderMovie, hc]
  · by_cases hlen : cs.length > 0
    · simp only [renderMovie, hc, if_pos hlen, List.length_take]
      omega
    · simp [renderMovie, hc, hlen]

theorem store_note_invariant_aux (events : List UiEvent) (store : List Comment)
    (hstore : ∀ c ∈ store, 1 ≤ c.note ∧ c.note ≤ 5) :
    ∀ c ∈ events.foldl step store, 1 ≤ c.note ∧ c.note ≤ 5 := by
  induction events generalizing store with
  | nil => exact hstore
  | cons e rest ih =>
    have hnext : ∀ c ∈ step store e, 1 ≤ c.note ∧ c.note ≤ 5 := by
      intro c hcm
      cases e with
      | submitEv i idv date =>
        rcases mem_submit i idv date store c hcm with hin | ⟨hv, rfl⟩
        · exact hstore c hin
        · exact mkComment_note_range i idv date hv
      | deleteEv idv =>
        exact hstore c (mem_of_mem_deleteComment idv store c hcm)
    exact ih (step store e) hnext

/-- C10: every comment ever held in the store along any trace of user actions
(started from the initial empty store) has a note in the closed range 1 to 5:
submissions append only after the validator has enforced the range on the
cast value, and removal never alters the remaining comments. -/
theorem comment_note_invariant (events : List UiEvent) (c : Comment)
    (h : c ∈ run events) : 1 ≤ c.note ∧ c.note ≤ 5 :=
  store_note_invariant_aux events []
    (fun x hx => absurd hx (List.not_mem_nil x)) c h

/-- A fully valid concrete form input. -/
def validInput : FormInput :=
  { comment := "Tres bon film", note := "5", acceptConditions := true }

theorem comment_note_invariant_witness :
    mkComment validInput "10" "02/02/2024" ∈ run [.submitEv validInput "10" "02/02/2024"] ∧
    1 ≤ (mkComment validInput "10" "02/02/2024").note ∧
    (mkComment validInput "10" "02/02/2024").note ≤ 5 :=
  ⟨by decide,
   comment_note_invariant [.submitEv validInput "10" "02/02/2024"] _ (by decide)⟩

end ReactMovie
